import Mathlib

/-!
# Verification of the osu-gulag server core against its specification

A shallow embedding, in Lean 4, of the parts of the `sutekina/osu-gulag`
server that the specification's checkable claims are about:

* the binary packet codec (`src/packets.py`): unsigned LEB128, the
  length-prefixed string type, packet framing, the packet reader's
  iteration/skip logic, and the composite `match` type;
* the multiplayer freemods toggle (`src/domains/cho.py`,
  `MatchChangeSettings.handle`);
* the login credential / duplicate-session logic (`src/domains/cho.py`,
  `login`);
* the score-submission pipeline (`src/domains/osu.py`,
  `osuSubmitModularSelector`): duplicate detection, personal-best
  demotion, replay persistence, stat and map updates;
* the logout handler (`src/domains/cho.py` `Logout.handle`,
  `src/objects/player.py` `Player.logout`).

Bytes are modelled as `Nat` (each entry intended `< 256`), buffers as
`List Nat`, Python `memoryview` slicing as `List.take`/`List.drop`
(which, like Python slices, silently truncate), and fallible operations
(`KeyError`, `ValueError`, `AttributeError`, `OverflowError`) as
`Option`/explicit error constructors.  Wall-clock times are modelled as
rationals.  Python enum wrapper classes (`IntFlag`/`IntEnum`
constructors) are modelled as identities on the numeric value except
where they can raise `ValueError` on out-of-range input, which is
modelled as a failure.
-/

namespace Gulag

/-! ## Little-endian byte encoding

`int.to_bytes(n, 'little')` and `int.from_bytes(view[:n], 'little')`
from `src/packets.py` (`_read_integral`, the various `to_bytes` calls in
the writers). -/

/-- `v.to_bytes (n, littleEndian)`: the `n` little-endian base-256 digits of
`v`.  (Python raises `OverflowError` when `v ≥ 2^(8n)`; callers model that
check explicitly.) -/
def leBytes : Nat → Nat → List Nat
  | 0, _ => []
  | n + 1, v => v % 256 :: leBytes n (v / 256)

/-- `int.from_bytes (bs, littleEndian)`: little-endian value of a byte list.
Matches Python in returning `0` for the empty list. -/
def leDecode : List Nat → Nat
  | [] => 0
  | b :: rest => b + 256 * leDecode rest

theorem leBytes_length (n v : Nat) : (leBytes n v).length = n := by
  induction n generalizing v with
  | zero => rfl
  | succ k ih => simp [leBytes, ih]

theorem leDecode_leBytes (n v : Nat) (h : v < 2 ^ (8 * n)) :
    leDecode (leBytes n v) = v := by
  induction n generalizing v with
  | zero =>
    simp only [Nat.mul_zero, pow_zero, Nat.lt_one_iff] at h
    simp [leBytes, leDecode, h]
  | succ k ih =>
    have hdiv : v / 256 < 2 ^ (8 * k) := by
      rw [Nat.div_lt_iff_lt_mul (by norm_num : (0:ℕ) < 256)]
      calc v < 2 ^ (8 * (k + 1)) := h
        _ = 2 ^ (8 * k) * 256 := by ring
    simp only [leBytes, leDecode, ih _ hdiv]
    omega

/-- Reading `n` bytes little-endian from a buffer that starts with the
`n`-byte encoding of `v` recovers `v` and leaves the rest. -/
theorem take_leBytes_append (n v : Nat) (rest : List Nat) :
    (leBytes n v ++ rest).take n = leBytes n v ∧
    (leBytes n v ++ rest).drop n = rest := by
  constructor
  · rw [List.take_append_of_le_length (by simp [leBytes_length])]
    simp [List.take_of_length_le, leBytes_length]
  · rw [List.drop_append_of_le_length (by simp [leBytes_length])]
    simp [List.drop_eq_nil_of_le, leBytes_length]

/-! ## Unsigned LEB128 (`write_uleb128`, `src/packets.py` lines 452-467)

The Python loop appends `num & 0x7f`, shifts `num` right by 7, and sets
the continuation bit when more digits follow. -/

/-- The body of `write_uleb128`'s `while num > 0` loop, embedded with an
explicit iteration bound so it is structurally recursive: each pass
divides `num` by 128, so `num` itself bounds the iteration count. -/
def ulebGo : Nat → Nat → List Nat
  | 0, num => [num]
  | fuel + 1, num =>
    if num < 128 then [num]
    else (num % 128 + 128) :: ulebGo fuel (num / 128)

/-- `write_uleb128`'s loop on a positive `num`. -/
def ulebLoop (num : Nat) : List Nat := ulebGo num num

/-- `write_uleb128` (`src/packets.py`): `0` encodes as the single byte
`0x00`; otherwise the loop runs. -/
def write_uleb128 (num : Nat) : List Nat :=
  if num = 0 then [0] else ulebLoop num

/-- The ULEB128 decode loop inside `read_string`
(`src/packets.py` lines 358-368): little-endian 7-bit groups, high bit as
continuation flag, accumulated with `|=` and `<<`. -/
def readUleb128 : List Nat → Nat → Nat → Option (Nat × List Nat)
  | [], _, _ => none
  | b :: rest, shift, acc =>
    let acc' := acc ||| ((b &&& 127) <<< shift)
    if b &&& 128 = 0 then some (acc', rest)
    else readUleb128 rest (shift + 7) acc'

/-- `write_string` (`src/packets.py` lines 469-479): flag byte `0x0b`,
ULEB128 length, UTF-8 payload; the empty string is the single byte `0x00`.
The string is represented by its UTF-8 byte list. -/
def write_string (s : List Nat) : List Nat :=
  if s ≠ [] then 11 :: (write_uleb128 s.length ++ s) else [0]

/-- `read_string` (`src/packets.py` lines 349-372): a flag byte other than
`0x0b` yields the empty string; otherwise a ULEB128 length prefixes the
payload.  `none` models the `IndexError` Python raises on an exhausted
buffer. -/
def read_string : List Nat → Option (List Nat × List Nat)
  | [] => none
  | flag :: rest =>
    if flag = 11 then
      match readUleb128 rest 0 0 with
      | none => none
      | some (len, rest') => some (rest'.take len, rest'.drop len)
    else
      some ([], rest)

theorem or_shifted_eq_add {acc m shift : Nat} (hacc : acc < 2 ^ shift) :
    acc ||| (m <<< shift) = acc + m * 2 ^ shift := by
  rw [Nat.shiftLeft_eq, Nat.or_comm, Nat.mul_comm m (2 ^ shift),
    ← Nat.mul_add_lt_is_or hacc, Nat.mul_comm]
  omega

theorem and_127_of_lt {b : Nat} (h : b < 128) : b &&& 127 = b := by
  have : (127 : Nat) = 2 ^ 7 - 1 := by norm_num
  rw [this, Nat.and_pow_two_sub_one_eq_mod, Nat.mod_eq_of_lt (by omega)]

theorem and_128_eq_zero_of_lt {b : Nat} (h : b < 128) : b &&& 128 = 0 := by
  apply Nat.eq_of_testBit_eq
  intro i
  simp only [Nat.testBit_and, Nat.zero_testBit]
  rcases eq_or_ne i 7 with rfl | hi
  · simp [Nat.testBit_lt_two_pow (show b < 2 ^ 7 by omega)]
  · have h128 : (128 : Nat) = 2 ^ 7 := by norm_num
    rw [h128, Nat.testBit_two_pow]
    simp [Ne.symm hi]

theorem readUleb128_ulebGo (fuel : Nat) :
    ∀ (num shift acc : Nat) (rest : List Nat), num ≤ fuel →
      acc < 2 ^ shift →
      readUleb128 (ulebGo fuel num ++ rest) shift acc =
        some (acc + num * 2 ^ shift, rest) := by
  induction fuel with
  | zero =>
    intro num shift acc rest hle hacc
    have h0 : num = 0 := Nat.le_zero.1 hle
    subst h0
    simp only [ulebGo, List.cons_append, List.nil_append, readUleb128]
    rw [and_127_of_lt (by omega), and_128_eq_zero_of_lt (by omega),
      if_pos rfl, or_shifted_eq_add hacc]
    simp
  | succ fuel ih =>
    intro num shift acc rest hle hacc
    by_cases h : num < 128
    · rw [ulebGo, if_pos h]
      simp only [List.cons_append, List.nil_append, readUleb128]
      rw [and_127_of_lt h, and_128_eq_zero_of_lt h, if_pos rfl,
        or_shifted_eq_add hacc]
      simp
    · rw [ulebGo, if_neg h]
      simp only [List.cons_append, readUleb128]
      have hb7 : (num % 128 + 128) &&& 127 = num % 128 := by
        have : (127 : Nat) = 2 ^ 7 - 1 := by norm_num
        rw [this, Nat.and_pow_two_sub_one_eq_mod]
        omega
      have hb8 : (num % 128 + 128) &&& 128 ≠ 0 := by
        have ht : ((num % 128 + 128) &&& 128).testBit 7 = true := by
          rw [Nat.testBit_and]
          have h1 : (num % 128 + 128).testBit 7 = true := by
            rw [Nat.testBit_to_div_mod]
            have h27 : (2:ℕ) ^ 7 = 128 := by norm_num
            have hdv : (num % 128 + 128) / 2 ^ 7 = 1 := by
              rw [h27]
              have := Nat.mod_lt num (by omega : (0:ℕ) < 128)
              omega
            simp [hdv]
          have h2 : (128 : Nat).testBit 7 = true := by decide
          simp [h1, h2]
        intro h0
        rw [h0] at ht
        simp at ht
      rw [hb7]
      rw [if_neg hb8]
      have hacc' : acc ||| ((num % 128) <<< shift) = acc + num % 128 * 2 ^ shift :=
        or_shifted_eq_add hacc
      rw [hacc']
      have hlt : acc + num % 128 * 2 ^ shift < 2 ^ (shift + 7) := by
        have h1 : num % 128 ≤ 127 := by omega
        have h2 : num % 128 * 2 ^ shift ≤ 127 * 2 ^ shift :=
          Nat.mul_le_mul_right _ h1
        have : 2 ^ (shift + 7) = 2 ^ shift * 128 := by ring
        omega
      have hle2 : num / 128 ≤ fuel := by
        have := Nat.div_lt_self (show 0 < num by omega)
          (show 1 < 128 by omega)
        omega
      rw [List.append_eq, ih (num / 128) (shift + 7) _ rest hle2 hlt]
      congr 2
      have : 2 ^ (shift + 7) = 2 ^ shift * 128 := by ring
      rw [this]
      have hsplit : num = num % 128 + 128 * (num / 128) :=
        (Nat.mod_add_div num 128).symm
      calc acc + num % 128 * 2 ^ shift + num / 128 * (2 ^ shift * 128)
          = acc + (num % 128 + 128 * (num / 128)) * 2 ^ shift := by ring
        _ = acc + num * 2 ^ shift := by rw [← hsplit]

theorem readUleb128_write_uleb128 (num : Nat) (rest : List Nat) :
    readUleb128 (write_uleb128 num ++ rest) 0 0 = some (num, rest) := by
  by_cases h : num = 0
  · subst h
    simp [write_uleb128, readUleb128]
  · rw [write_uleb128, if_neg h]
    have := readUleb128_ulebGo num num 0 0 rest (le_refl num)
      (by norm_num)
    simpa [ulebLoop] using this

theorem read_string_write (s rest : List Nat) :
    read_string (write_string s ++ rest) = some (s, rest) := by
  by_cases h : s = []
  · subst h
    simp [write_string, read_string]
  · rw [write_string, if_pos h]
    simp only [List.cons_append, List.append_assoc, read_string, if_pos rfl]
    rw [readUleb128_write_uleb128 s.length (s ++ rest)]
    simp [List.take_append_of_le_length, List.drop_append_of_le_length,
      List.take_of_length_le, List.drop_eq_nil_of_le]

/-- **C5** — LEB128 string round trip.  For every UTF-8 string `s` (given
by its byte list) of encoded length up to `2^28` bytes,
`read_string (write_string s ++ rest)` returns `s` exactly, consuming
exactly the encoding; and the encoding of the empty string is the single
byte `0x00`. -/
theorem read_string_write_string (s rest : List Nat)
    (_hlen : s.length ≤ 2 ^ 28) :
    read_string (write_string s ++ rest) = some (s, rest) ∧
      write_string [] = [0] :=
  ⟨read_string_write s rest, rfl⟩

/-- Witness for `read_string_write_string` at the concrete string
`"hi"` (bytes `[104, 105]`). -/
theorem read_string_write_string_witness :
    read_string (write_string [104, 105] ++ [7]) = some ([104, 105], [7]) ∧
      write_string [] = [0] :=
  read_string_write_string [104, 105] [7] (by norm_num)

/-! ## Signed 32-bit integers (`struct.pack('<i', ...)`, `read_i32`) -/

/-- `v.to_bytes(4, littleEndian, signed)` / `struct.pack('<i', v)`:
two's-complement little-endian.  Callers check the i32 range where Python
would raise `OverflowError`/`struct.error`. -/
def i32le (v : Int) : List Nat :=
  leBytes 4 (v % (2 ^ 32 : Int)).toNat

/-- `read_i32` (`_read_integral(size=4, signed=True)`, `src/packets.py`):
reads `view[:4]` little-endian and sign-extends. -/
def readI32s (bs : List Nat) : Int × List Nat :=
  let u := leDecode (bs.take 4)
  (if u < 2 ^ 31 then (u : Int) else (u : Int) - 2 ^ 32, bs.drop 4)

/-- `read_i8` (`_read_integral(size=1, signed=True)`): one byte, signed.
Matches Python's `int.from_bytes(b'')=0` on an exhausted view. -/
def readI8s : List Nat → Int × List Nat
  | [] => (0, [])
  | b :: r => (if b < 128 then (b : Int) else (b : Int) - 256, r)

theorem readI32s_i32le (v : Int) (rest : List Nat)
    (h1 : -(2 ^ 31) ≤ v) (h2 : v < 2 ^ 31) :
    readI32s (i32le v ++ rest) = (v, rest) := by
  have hmod : (0:Int) ≤ v % (2 ^ 32 : Int) ∧ v % (2 ^ 32 : Int) < 2 ^ 32 := by
    constructor
    · exact Int.emod_nonneg v (by norm_num)
    · exact Int.emod_lt_of_pos v (by norm_num)
  have htn : ((v % (2 ^ 32 : Int)).toNat : Int) = v % (2 ^ 32 : Int) :=
    Int.toNat_of_nonneg hmod.1
  have hlt : (v % (2 ^ 32 : Int)).toNat < 2 ^ (8 * 4) := by omega
  obtain ⟨htake, hdrop⟩ := take_leBytes_append 4 (v % (2 ^ 32 : Int)).toNat rest
  simp only [readI32s, i32le, htake, hdrop, leDecode_leBytes _ _ hlt]
  by_cases hpos : 0 ≤ v
  · have : v % (2 ^ 32 : Int) = v := Int.emod_eq_of_lt hpos (by omega)
    rw [if_pos (by omega)]
    congr 1
    omega
  · have : v % (2 ^ 32 : Int) = v + 2 ^ 32 := by omega
    rw [if_neg (by omega)]
    congr 1
    omega

/-! ## Packet framing (`write`, `src/packets.py` lines 565-592)

`struct.pack('<Hx', packid)` then payload, with the 32-bit length spliced
in at offset 3. -/

/-- One framed packet: u16-le packet id, one pad byte, u32-le payload
length, payload. -/
def packet (packid : Nat) (payload : List Nat) : List Nat :=
  [packid % 256, packid / 256 % 256, 0] ++ leBytes 4 payload.length ++ payload

/-- `packets.userID` (`src/packets.py` line 600): packet 5 with one signed
i32. -/
def userID (id : Int) : List Nat :=
  packet 5 (i32le id)

/-- `packets.notification` (`src/packets.py` line 755): packet 24 with one
string (UTF-8 byte list). -/
def notification (msg : List Nat) : List Nat :=
  packet 24 (write_string msg)

/-- `packets.logout` (`src/packets.py` line 702): packet 12 with a signed
i32 user id and a u8 zero. -/
def logoutPacket (userid : Int) : List Nat :=
  packet 12 (i32le userid ++ [0])

/-! ## Packet reader iteration (`BanchoPacketReader`, `src/packets.py`)

`read_header` (lines 289-299) raises `StopIteration` when fewer than 7
bytes remain, then evaluates `Packets(data[0])`, which raises
`ValueError` for a u16 that is not a member of the `Packets` enum.
`__next__` (lines 214-236) skips packets whose id has no entry in
`packet_map` by dropping the declared payload length. -/

/-- The values of the `Packets` enum (`src/packets.py` lines 47-155):
`0..109` except `6` and `35`. -/
def validPacketIds : List Nat :=
  (List.range 110).filter (fun n => n != 6 && n != 35)

/-- Result of one `__next__` call: `stop` models `StopIteration` (clean
end of iteration), `malformed` models the `ValueError` escaping from
`Packets(data[0])`, and `packet` is a handled packet about to have its
arguments read (`ptype`, declared length, remaining buffer). -/
inductive NextResult where
  | stop
  | malformed
  | packet (ptype plen : Nat) (rest : List Nat)
deriving DecidableEq

/-- `BanchoPacketReader.__next__` up to the point where a handled packet
is returned.  `packetMap` is the set of packet ids with registered
handlers (the keys of `packet_map`). -/
def readerNext (packetMap : List Nat) : List Nat → NextResult
  | b0 :: b1 :: _bpad :: l0 :: l1 :: l2 :: l3 :: rest =>
    let ptype := b0 + 256 * b1
    let plen := l0 + 256 * l1 + 65536 * l2 + 16777216 * l3
    if ptype ∈ validPacketIds then
      if ptype ∈ packetMap then
        NextResult.packet ptype plen rest
      else
        -- "packet type not handled, remove from internal buffer and
        -- continue."  (The source guards the slice with `if p_len != 0`;
        -- dropping 0 bytes is the identity, so the unconditional drop is
        -- the same function.)
        readerNext packetMap (rest.drop plen)
    else
      NextResult.malformed
  | _ => NextResult.stop
termination_by view => view.length
decreasing_by
  simp only [List.length_cons, List.length_drop]
  omega

theorem readerNext_cons (pm : List Nat) (b0 b1 bpad l0 l1 l2 l3 : Nat)
    (rest : List Nat) :
    readerNext pm (b0 :: b1 :: bpad :: l0 :: l1 :: l2 :: l3 :: rest) =
      if b0 + 256 * b1 ∈ validPacketIds then
        if b0 + 256 * b1 ∈ pm then
          NextResult.packet (b0 + 256 * b1)
            (l0 + 256 * l1 + 65536 * l2 + 16777216 * l3) rest
        else
          readerNext pm
            (rest.drop (l0 + 256 * l1 + 65536 * l2 + 16777216 * l3))
      else NextResult.malformed := by
  rw [readerNext]

theorem readerNext_short (pm : List Nat) (view : List Nat)
    (hshort : view.length < 7) : readerNext pm view = NextResult.stop := by
  match view with
  | [] => simp [readerNext]
  | [_] => simp [readerNext]
  | [_, _] => simp [readerNext]
  | [_, _, _] => simp [readerNext]
  | [_, _, _, _] => simp [readerNext]
  | [_, _, _, _, _] => simp [readerNext]
  | [_, _, _, _, _, _] => simp [readerNext]
  | _ :: _ :: _ :: _ :: _ :: _ :: _ :: _ => exact absurd hshort (by simp)

/-- **C6 (counterexample)** — the claim says every packet whose id has no
registered handler is skipped by advancing exactly the payload length.
Packet id `6` has no registered handler (it is not even a member of the
`Packets` enum), yet a body consisting of that single empty packet makes
the reader raise `ValueError` (`malformed`) instead of skipping it and
terminating cleanly; id `4` (a `Packets` member with no handler
registered) is skipped as claimed. -/
theorem readerNext_unknown_id_counterexample :
    readerNext [] [6, 0, 0, 0, 0, 0, 0] = NextResult.malformed ∧
      readerNext [] [4, 0, 0, 0, 0, 0, 0] = NextResult.stop := by
  constructor
  · rw [show ([6, 0, 0, 0, 0, 0, 0] : List Nat) =
      6 :: 0 :: 0 :: 0 :: 0 :: 0 :: 0 :: ([] : List Nat) from rfl,
      readerNext_cons, if_neg (by decide)]
  · rw [show ([4, 0, 0, 0, 0, 0, 0] : List Nat) =
      4 :: 0 :: 0 :: 0 :: 0 :: 0 :: 0 :: ([] : List Nat) from rfl,
      readerNext_cons, if_pos (by decide), if_neg (by decide)]
    exact readerNext_short [] _ (by decide)

/-- **C6 (amended)** — the reader skips each packet whose id is a member
of the `Packets` enum but has no registered handler by advancing exactly
the declared payload length, and terminates iteration cleanly
(`StopIteration`) whenever fewer than 7 bytes remain; a packet id outside
the `Packets` enum instead aborts decoding with a `ValueError`. -/
theorem readerNext_skip_and_stop (pm : List Nat)
    (b0 b1 bpad l0 l1 l2 l3 : Nat) (rest view : List Nat)
    (hmem : b0 + 256 * b1 ∈ validPacketIds)
    (hnotmap : b0 + 256 * b1 ∉ pm)
    (hshort : view.length < 7) :
    readerNext pm (b0 :: b1 :: bpad :: l0 :: l1 :: l2 :: l3 :: rest) =
      readerNext pm
        (rest.drop (l0 + 256 * l1 + 65536 * l2 + 16777216 * l3)) ∧
      readerNext pm view = NextResult.stop := by
  refine ⟨?_, readerNext_short pm view hshort⟩
  rw [readerNext_cons, if_pos hmem, if_neg hnotmap]

/-- Witness for `readerNext_skip_and_stop`: packet id `4` (ping) with a
3-byte payload is skipped; a 2-byte buffer stops iteration. -/
theorem readerNext_skip_and_stop_witness :
    readerNext [] [4, 0, 0, 3, 0, 0, 0, 9, 9, 9] =
        readerNext [] (([9, 9, 9] : List Nat).drop (3 + 256 * 0 + 65536 * 0 + 16777216 * 0)) ∧
      readerNext [] [1, 1] = NextResult.stop :=
  readerNext_skip_and_stop [] 4 0 0 3 0 0 0 [9, 9, 9] [1, 1]
    (by decide) (by decide) (by decide)

/-! ## The multiplayer match and its wire form

The `Match`, `Slot`, `SlotStatus`, `MatchTeams` etc. classes live in
`objects/match.py`, which is absent from `src/`; the fields and defaults
below are modelled from the spec (§3 *Match*, *Slot*; §4.1 *Composite
"match"*) as consumed by `write_match`/`read_match` in `src/packets.py`
and `MatchChangeSettings.handle` in `src/domains/cho.py`. -/

/-- Modelled from the spec: the slot-status bitset (`objects/match.py` is
absent from `src/`).  Statuses: open=1, locked=2, not-ready=4, ready=8,
no-map=16, playing=32, complete=64, quit=128; `has_player` is the mask of
the five occupied statuses (`4|8|16|32|64 = 124`), so "has-player is a
mask test" (spec §3 *Slot*). -/
def hasPlayerMask : Nat := 124

/-- One of the 16 match slots.  `player` is the non-owning session
reference, by session id (`none` models Python `None`). -/
structure Slot where
  status : Nat
  team : Nat
  player : Option Nat
  mods : Nat
deriving DecidableEq

/-- A multiplayer match, with exactly the attributes the wire codec and
the settings handler touch.  Strings are UTF-8 byte lists; `host` is the
host's session id. -/
structure Match where
  id : Nat
  in_progress : Bool
  mods : Nat
  name : List Nat
  passwd : List Nat
  map_name : List Nat
  map_id : Int
  map_md5 : List Nat
  slots : List Slot
  host : Option Nat
  mode : Nat
  win_condition : Nat
  team_type : Nat
  freemods : Bool
  seed : Int
deriving DecidableEq

def boolByte (b : Bool) : Nat := if b then 1 else 0

/-- The per-occupied-slot u32 user ids written by `write_match`
(`src/packets.py` lines 542-544). -/
def slotIdsBytes : List Slot → List Nat
  | [] => []
  | s :: rest =>
    (if s.status &&& hasPlayerMask ≠ 0 then leBytes 4 (s.player.getD 0)
     else []) ++ slotIdsBytes rest

/-- The 16 per-slot u32 mod masks written when freemods is set
(`src/packets.py` lines 550-552). -/
def slotModsBytes : List Slot → List Nat
  | [] => []
  | s :: rest => leBytes 4 s.mods ++ slotModsBytes rest

/-- The byte image produced by `write_match` (`src/packets.py` lines
522-555): `struct.pack('<HbbI', id, in_progress, 0, mods)`, the three
strings (password hidden as `b'\x0b\x00'` when `send_pw` is false), the
signed map id, 16 status bytes, 16 team bytes, the occupied slots' user
ids, the host id, four enum/flag bytes, the optional per-slot mods, and
the seed. -/
def writeMatchBytes (m : Match) (send_pw : Bool) : List Nat :=
  leBytes 2 m.id ++ [boolByte m.in_progress, 0] ++ leBytes 4 m.mods
    ++ write_string m.name
    ++ (if m.passwd ≠ [] then
          (if send_pw then write_string m.passwd else [11, 0])
        else [0])
    ++ write_string m.map_name
    ++ i32le m.map_id
    ++ write_string m.map_md5
    ++ m.slots.map (·.status)
    ++ m.slots.map (·.team)
    ++ slotIdsBytes m.slots
    ++ leBytes 4 (m.host.getD 0)
    ++ [m.mode, m.win_condition, m.team_type, boolByte m.freemods]
    ++ (if m.freemods then slotModsBytes m.slots else [])
    ++ leBytes 4 m.seed.toNat

/-- The conditions under which `write_match` runs to completion: the
`struct.pack`/`to_bytes`/`bytearray.extend` range checks, `m.host.id`
(`AttributeError` if the host reference is `None`), and `s.player.id` for
every occupied slot. -/
def matchEncodable (m : Match) : Bool :=
  m.id < 2 ^ 16 && m.mods < 2 ^ 32
    && (-(2 ^ 31) : Int) ≤ m.map_id && m.map_id < 2 ^ 31
    && m.slots.all (fun s =>
        s.status < 256 && s.team < 256
          && (s.status &&& hasPlayerMask = 0 ||
                (s.player.isSome && s.player.getD 0 < 2 ^ 32)))
    && (!m.freemods || m.slots.all (fun s => s.mods < 2 ^ 32))
    && m.host.isSome && m.host.getD 0 < 2 ^ 32
    && m.mode < 256 && m.win_condition < 256 && m.team_type < 256
    && (0 : Int) ≤ m.seed && m.seed < 2 ^ 32

/-- `write_match`: `some` bytes on success, `none` when Python would
raise. -/
def write_match (m : Match) (send_pw : Bool) : Option (List Nat) :=
  if matchEncodable m then some (writeMatchBytes m send_pw) else none

/-- `IntEnum`/`IntFlag` applied to a signed read: raises `ValueError` on
a negative value (e.g. `SlotStatus(self.read_i8())` on a byte ≥ 0x80,
`Mods(self.read_i32())` on a value with bit 31 set). -/
def intFlagOfInt (i : Int) : Option Nat :=
  if 0 ≤ i then some i.toNat else none

/-- The `for slot in m.slots: ... = XX(self.read_i8())` loops of
`read_match` (16 signed bytes through an enum constructor). -/
def readSlotBytes : Nat → List Nat → Option (List Nat × List Nat)
  | 0, bs => some ([], bs)
  | n + 1, bs =>
    let (v, bs') := readI8s bs
    match intFlagOfInt v with
    | none => none
    | some b =>
      match readSlotBytes n bs' with
      | none => none
      | some (vs, rest) => some (b :: vs, rest)

/-- The freemods loop of `read_match`: 16 × `Mods(self.read_i32())`. -/
def readSlotModsList : Nat → List Nat → Option (List Nat × List Nat)
  | 0, bs => some ([], bs)
  | n + 1, bs =>
    let (v, bs') := readI32s bs
    match intFlagOfInt v with
    | none => none
    | some b =>
      match readSlotModsList n bs' with
      | none => none
      | some (vs, rest) => some (b :: vs, rest)

/-- Rebuilding the 16 `Slot` objects after a parse: status and team from
the wire, `player` left at its `None` default (the reader explicitly
discards the occupied slots' user ids), mods from the wire under
freemods and the `NOMOD` default otherwise. -/
def buildSlots : List Nat → List Nat → List Nat → List Slot
  | st :: sts, t :: ts, md :: mds =>
    { status := st, team := t, player := none, mods := md }
      :: buildSlots sts ts mds
  | _, _, _ => []

/-- `BanchoPacketReader.read_match` (`src/packets.py` lines 393-439).
The wire match id and in-progress byte are skipped (`self.view =
self.view[3:]`), so the returned `Match()` keeps its defaults `id = 0`,
`in_progress = False`; the occupied slots' user ids are read and
discarded; `m.host` is resolved through the session registry
(`glob.players.get(id=host_id)`), modelled by the `online` predicate. -/
def read_match (online : Nat → Bool) (bs0 : List Nat) : Option Match := do
  let bs := bs0.drop 3
  let (_powerplay, bs) := readI8s bs
  let (modsI, bs) := readI32s bs
  let mods ← intFlagOfInt modsI
  let (name, bs) ← read_string bs
  let (passwd, bs) ← read_string bs
  let (map_name, bs) ← read_string bs
  let (map_id, bs) := readI32s bs
  let (map_md5, bs) ← read_string bs
  let (statuses, bs) ← readSlotBytes 16 bs
  let (teams, bs) ← readSlotBytes 16 bs
  let bs := bs.drop (4 * (statuses.filter (fun st => st &&& hasPlayerMask != 0)).length)
  let (host_id, bs) := readI32s bs
  let host : Option Nat :=
    if 0 ≤ host_id ∧ online host_id.toNat then some host_id.toNat else none
  let (modeI, bs) := readI8s bs
  let mode ← intFlagOfInt modeI
  let (wcI, bs) := readI8s bs
  let win_condition ← intFlagOfInt wcI
  let (ttI, bs) := readI8s bs
  let team_type ← intFlagOfInt ttI
  let (fmI, bs) := readI8s bs
  let freemods := fmI == 1
  let (slotMods, bs) ←
    if freemods then readSlotModsList 16 bs
    else pure (List.replicate 16 0, bs)
  let (seed, _) := readI32s bs
  some { id := 0, in_progress := false, mods, name, passwd, map_name,
         map_id, map_md5, slots := buildSlots statuses teams slotMods,
         host, mode, win_condition, team_type, freemods, seed }

/-! ### Match codec round-trip lemmas -/

theorem intFlagOfInt_coe (n : Nat) : intFlagOfInt (n : Int) = some n := by
  simp [intFlagOfInt]

theorem readI8s_cons {b : Nat} (h : b < 128) (rest : List Nat) :
    readI8s (b :: rest) = ((b : Int), rest) := by
  simp [readI8s, h]

theorem readI32s_leBytes4 {v : Nat} (h : v < 2 ^ 31) (rest : List Nat) :
    readI32s (leBytes 4 v ++ rest) = ((v : Int), rest) := by
  obtain ⟨htake, hdrop⟩ := take_leBytes_append 4 v rest
  simp only [readI32s, htake, hdrop,
    leDecode_leBytes 4 v (by norm_num; omega)]
  rw [if_pos h]

theorem readSlotBytes_append (l rest : List Nat) (n : Nat)
    (hn : l.length = n) (hlt : ∀ b ∈ l, b < 128) :
    readSlotBytes n (l ++ rest) = some (l, rest) := by
  induction l generalizing n with
  | nil =>
    subst hn
    simp [readSlotBytes]
  | cons b l ih =>
    subst hn
    have hb : b < 128 := hlt b (List.mem_cons_self b l)
    simp only [List.length_cons, List.cons_append, readSlotBytes,
      readI8s_cons hb, intFlagOfInt_coe, Int.toNat_natCast,
      ih _ rfl (fun x hx => hlt x (List.mem_cons_of_mem b hx))]

theorem readSlotModsList_slotModsBytes (slots : List Slot)
    (rest : List Nat) (n : Nat) (hn : slots.length = n)
    (hlt : ∀ s ∈ slots, s.mods < 2 ^ 31) :
    readSlotModsList n (slotModsBytes slots ++ rest) =
      some (slots.map (·.mods), rest) := by
  induction slots generalizing n with
  | nil =>
    subst hn
    simp [readSlotModsList, slotModsBytes]
  | cons s slots ih =>
    subst hn
    have hs : s.mods < 2 ^ 31 := hlt s (List.mem_cons_self s slots)
    simp only [slotModsBytes, List.length_cons, List.append_assoc,
      readSlotModsList, readI32s_leBytes4 hs, intFlagOfInt_coe,
      Int.toNat_natCast, List.map_cons,
      ih _ rfl (fun x hx => hlt x (List.mem_cons_of_mem s hx))]

theorem slotIdsBytes_nil {slots : List Slot}
    (h : ∀ s ∈ slots, s.status &&& hasPlayerMask = 0) :
    slotIdsBytes slots = [] := by
  induction slots with
  | nil => rfl
  | cons s slots ih =>
    have hs := h s (List.mem_cons_self s slots)
    simp only [slotIdsBytes, hs, ne_eq, not_true_eq_false, if_neg,
      List.nil_append]
    exact ih (fun x hx => h x (List.mem_cons_of_mem s hx))

theorem occupied_filter_nil {statuses : List Nat}
    (h : ∀ st ∈ statuses, st &&& hasPlayerMask = 0) :
    statuses.filter (fun st => st &&& hasPlayerMask != 0) = [] := by
  induction statuses with
  | nil => rfl
  | cons st statuses ih =>
    have hs := h st (List.mem_cons_self st statuses)
    simp only [List.filter_cons, hs]
    simp only [bne_self_eq_false, if_neg, Bool.false_eq_true,
      not_false_eq_true]
    exact ih (fun x hx => h x (List.mem_cons_of_mem st hx))

/-- Erase the (unserialised) player references from a slot, as a parse
leaves them at their default. -/
def erasePlayer (s : Slot) : Slot :=
  { status := s.status, team := s.team, player := none, mods := s.mods }

theorem buildSlots_maps (slots : List Slot) :
    buildSlots (slots.map (·.status)) (slots.map (·.team))
        (slots.map (·.mods)) = slots.map erasePlayer := by
  induction slots with
  | nil => rfl
  | cons s slots ih => simp [buildSlots, ih, erasePlayer]

theorem buildSlots_replicate (slots : List Slot)
    (h0 : ∀ s ∈ slots, s.mods = 0) :
    buildSlots (slots.map (·.status)) (slots.map (·.team))
        (List.replicate slots.length 0) = slots.map erasePlayer := by
  induction slots with
  | nil => rfl
  | cons s slots ih =>
    have hs := h0 s (List.mem_cons_self s slots)
    simp only [List.map_cons, List.length_cons, List.replicate_succ,
      buildSlots, erasePlayer, hs]
    rw [ih (fun x hx => h0 x (List.mem_cons_of_mem s hx))]

set_option maxHeartbeats 1600000 in
theorem read_match_writeMatchBytes (m : Match) (online : Nat → Bool)
    (sp : Bool) (hostId : Nat)
    (hid : m.id = 0) (hip : m.in_progress = false)
    (hlen : m.slots.length = 16)
    (hmods : m.mods < 2 ^ 31)
    (hslots : ∀ s ∈ m.slots, s.status < 128 ∧
      s.status &&& hasPlayerMask = 0 ∧ s.team < 128 ∧ s.mods < 2 ^ 31)
    (hnm : m.freemods = false → ∀ s ∈ m.slots, s.mods = 0)
    (hhosteq : m.host = some hostId) (hhostlt : hostId < 2 ^ 31)
    (honline : online hostId = true)
    (hmode : m.mode < 128) (hwc : m.win_condition < 128)
    (htt : m.team_type < 128)
    (hmap1 : -(2 ^ 31) ≤ m.map_id) (hmap2 : m.map_id < 2 ^ 31)
    (hseed1 : 0 ≤ m.seed) (hseed2 : m.seed < 2 ^ 31)
    (hpw : sp = true ∨ m.passwd = []) :
    read_match online (writeMatchBytes m sp) =
      some { m with slots := m.slots.map erasePlayer } := by
  have hdrop3 : ∀ (a b c : Nat) (l : List Nat),
      List.drop 3 (a :: b :: c :: l) = l := fun _ _ _ _ => rfl
  have hlb2 : leBytes 2 0 = [0, 0] := rfl
  have hpwB : (if m.passwd ≠ [] then
        (if sp then write_string m.passwd else [11, 0])
      else [0]) = write_string m.passwd := by
    rcases hpw with hsp | hempty
    · subst hsp
      by_cases hp : m.passwd = [] <;> simp [hp, write_string]
    · simp [hempty, write_string]
  have hids : slotIdsBytes m.slots = [] :=
    slotIdsBytes_nil (fun s hs => (hslots s hs).2.1)
  have h0B : ∀ l : List Nat, readI8s (0 :: l) = (0, l) := fun _ => rfl
  have h1B : ∀ l : List Nat, readI8s (1 :: l) = (1, l) := fun _ => rfl
  have hmods' : ∀ rest, readI32s (leBytes 4 m.mods ++ rest) =
      ((m.mods : Int), rest) := fun rest => readI32s_leBytes4 hmods rest
  have hhostB : ∀ rest, readI32s (leBytes 4 hostId ++ rest) =
      ((hostId : Int), rest) := fun rest => readI32s_leBytes4 hhostlt rest
  have hseedB : readI32s (leBytes 4 m.seed.toNat) =
      ((m.seed.toNat : Int), []) := by
    have := readI32s_leBytes4 (show m.seed.toNat < 2 ^ 31 by omega) []
    simpa using this
  have hmapB : ∀ rest, readI32s (i32le m.map_id ++ rest) =
      (m.map_id, rest) := fun rest => readI32s_i32le _ _ hmap1 hmap2
  have hmodeB : ∀ rest, readI8s (m.mode :: rest) =
      ((m.mode : Int), rest) := fun rest => readI8s_cons hmode rest
  have hwcB : ∀ rest, readI8s (m.win_condition :: rest) =
      ((m.win_condition : Int), rest) := fun rest => readI8s_cons hwc rest
  have httB : ∀ rest, readI8s (m.team_type :: rest) =
      ((m.team_type : Int), rest) := fun rest => readI8s_cons htt rest
  have hst : ∀ rest,
      readSlotBytes 16 (m.slots.map (fun x => x.status) ++ rest) =
        some (m.slots.map (fun x => x.status), rest) := fun rest =>
    readSlotBytes_append _ _ _ (by simp [hlen]) (by
      intro b hb
      obtain ⟨s, hs, rfl⟩ := List.mem_map.1 hb
      exact (hslots s hs).1)
  have htm : ∀ rest,
      readSlotBytes 16 (m.slots.map (fun x => x.team) ++ rest) =
        some (m.slots.map (fun x => x.team), rest) := fun rest =>
    readSlotBytes_append _ _ _ (by simp [hlen]) (by
      intro b hb
      obtain ⟨s, hs, rfl⟩ := List.mem_map.1 hb
      exact (hslots s hs).2.2.1)
  have hfil : ((m.slots.map (fun x => x.status)).filter
      (fun st => st &&& hasPlayerMask != 0)) = [] :=
    occupied_filter_nil (by
      intro st hst'
      obtain ⟨s, hs, rfl⟩ := List.mem_map.1 hst'
      exact (hslots s hs).2.1)
  have hmv : ∀ rest, readSlotModsList 16 (slotModsBytes m.slots ++ rest) =
      some (m.slots.map (fun x => x.mods), rest) := fun rest =>
    readSlotModsList_slotModsBytes _ _ _ hlen
      (fun s hs => (hslots s hs).2.2.2)
  have hseedT : ((m.seed.toNat : Nat) : Int) = m.seed :=
    Int.toNat_of_nonneg hseed1
  by_cases hf : m.freemods
  · simp only [writeMatchBytes, hid, hip, hlb2, hpwB, hids, hf,
      boolByte, if_true, List.append_assoc, List.cons_append,
      List.nil_append, List.append_nil, if_false, Bool.false_eq_true,
      hhosteq, Option.getD_some]
    simp [read_match, hdrop3, h0B, h1B, hmods', read_string_write,
      hmapB, hst, htm, hfil, hhostB, intFlagOfInt_coe, hmodeB, hwcB,
      httB, hmv, hseedB, hseedT, honline]
    exact buildSlots_maps m.slots
  · have hf' : m.freemods = false := by simpa using hf
    have hrep : List.replicate 16 (0 : Nat) =
        List.replicate m.slots.length 0 := by rw [hlen]
    simp only [writeMatchBytes, hid, hip, hlb2, hpwB, hids, hf',
      boolByte, if_true, List.append_assoc, List.cons_append,
      List.nil_append, List.append_nil, if_false, Bool.false_eq_true,
      hhosteq, Option.getD_some]
    simp [read_match, hdrop3, h0B, h1B, hmods', read_string_write,
      hmapB, hst, htm, hfil, hhostB, intFlagOfInt_coe, hmodeB, hwcB,
      httB, hseedB, hseedT, honline]
    have hbr := buildSlots_replicate m.slots (hnm hf')
    rw [hlen] at hbr
    exact hbr

theorem slotModsBytes_map_erase (slots : List Slot) :
    slotModsBytes (slots.map erasePlayer) = slotModsBytes slots := by
  induction slots with
  | nil => rfl
  | cons s slots ih => simp [slotModsBytes, erasePlayer, ih]

/-- 16 open, empty slots (a freshly created room). -/
def emptySlots : List Slot :=
  List.replicate 16 { status := 1, team := 0, player := none, mods := 0 }

/-- A session registry in which only user id 5 is online. -/
def exampleOnline : Nat → Bool := fun n => n == 5

/-- A small concrete match hosted by user 5, used to instantiate the
match-codec theorems. -/
def baseExampleMatch : Match :=
  { id := 0, in_progress := false, mods := 0, name := [65], passwd := [],
    map_name := [], map_id := 0, map_md5 := [], slots := emptySlots,
    host := some 5, mode := 0, win_condition := 0, team_type := 0,
    freemods := false, seed := 0 }

/-- `emptySlots` with the first slot occupied (not-ready) by user 7. -/
def occupiedExampleSlots : List Slot :=
  { status := 4, team := 0, player := some 7, mods := 0 } ::
    List.replicate 15 { status := 1, team := 0, player := none, mods := 0 }

/-- Serialize, re-parse, re-serialize: the composition the claim says is
the identity on bytes. -/
def matchReserialized (online : Nat → Bool) (m : Match) (sp : Bool) :
    Option (List Nat) :=
  (write_match m sp).bind fun bs =>
    (read_match online bs).bind fun m2 => write_match m2 sp

/-- **C4 (counterexample)** — re-serializing a re-parsed match is *not*
byte-identical in general, because `read_match` discards the wire match
id and in-progress byte (keeping the `Match()` defaults `0`/`False`) and
discards the occupied slots' player ids (leaving `slot.player = None`,
so `write_match` then crashes on `s.player.id`); hiding the password
(`send_pw = False`) also breaks the round trip.  Concretely: a match
with id 1 re-serializes with id 0; an in-progress match re-serializes as
not in progress; a match with an occupied slot cannot be re-serialized
at all; and a non-empty password under `send_pw = False` re-serializes
with a different password field. -/
theorem write_match_roundtrip_counterexample :
    (matchReserialized exampleOnline { baseExampleMatch with id := 1 } true ≠
        write_match { baseExampleMatch with id := 1 } true ∧
      (write_match { baseExampleMatch with id := 1 } true).isSome) ∧
    (matchReserialized exampleOnline
          { baseExampleMatch with in_progress := true } true ≠
        write_match { baseExampleMatch with in_progress := true } true ∧
      (write_match { baseExampleMatch with in_progress := true } true).isSome) ∧
    (matchReserialized exampleOnline
          { baseExampleMatch with slots := occupiedExampleSlots } true =
          none ∧
      (write_match { baseExampleMatch with slots := occupiedExampleSlots }
          true).isSome) ∧
    (matchReserialized exampleOnline
          { baseExampleMatch with passwd := [66] } false ≠
        write_match { baseExampleMatch with passwd := [66] } false ∧
      (write_match { baseExampleMatch with passwd := [66] } false).isSome) := by
  decide

/-- **C4 (amended)** — serialize/re-parse/re-serialize is byte-identical
for every match the parse can actually preserve: match id 0 (the
`Match()` default), not in progress, no occupied slot (occupied slots'
player ids are discarded by the parser), slot/enum bytes in their Python
enum ranges, a host that resolves in the session registry, numeric
fields within the signed ranges the re-parse reads, and a password
either empty or sent in the clear (`send_pw` held constant). -/
theorem write_match_roundtrip (m : Match) (online : Nat → Bool)
    (sp : Bool) (hostId : Nat)
    (hid : m.id = 0) (hip : m.in_progress = false)
    (hlen : m.slots.length = 16)
    (hmods : m.mods < 2 ^ 31)
    (hslots : ∀ s ∈ m.slots, s.status < 128 ∧
      s.status &&& hasPlayerMask = 0 ∧ s.team < 128 ∧ s.mods < 2 ^ 31)
    (hnm : m.freemods = false → ∀ s ∈ m.slots, s.mods = 0)
    (hhosteq : m.host = some hostId) (hhostlt : hostId < 2 ^ 31)
    (honline : online hostId = true)
    (hmode : m.mode < 128) (hwc : m.win_condition < 128)
    (htt : m.team_type < 128)
    (hmap1 : -(2 ^ 31) ≤ m.map_id) (hmap2 : m.map_id < 2 ^ 31)
    (hseed1 : 0 ≤ m.seed) (hseed2 : m.seed < 2 ^ 31)
    (hpw : sp = true ∨ m.passwd = []) :
    ∃ bs m', write_match m sp = some bs ∧
      read_match online bs = some m' ∧ write_match m' sp = some bs := by
  have hslotAll : ∀ slots2 : List Slot,
      (∀ s ∈ slots2, s.status < 128 ∧ s.status &&& hasPlayerMask = 0 ∧
        s.team < 128 ∧ s.mods < 2 ^ 31) →
      slots2.all (fun s => s.status < 256 && s.team < 256
        && (s.status &&& hasPlayerMask = 0 ||
              (s.player.isSome && s.player.getD 0 < 2 ^ 32))) = true := by
    intro slots2 hs2
    rw [List.all_eq_true]
    intro s hs
    rcases hs2 s hs with ⟨ha, hb, hc, _⟩
    simp only [Bool.and_eq_true, Bool.or_eq_true, decide_eq_true_eq]
    exact ⟨⟨by omega, by omega⟩, Or.inl hb⟩
  have hmodAll : ∀ slots2 : List Slot,
      (∀ s ∈ slots2, s.status < 128 ∧ s.status &&& hasPlayerMask = 0 ∧
        s.team < 128 ∧ s.mods < 2 ^ 31) →
      ∀ fm : Bool, (!fm || slots2.all (fun s => s.mods < 2 ^ 32)) = true := by
    intro slots2 hs2 fm
    cases fm
    · rfl
    · rw [Bool.not_true, Bool.false_or, List.all_eq_true]
      intro s hs
      have := (hs2 s hs).2.2.2
      simp only [decide_eq_true_eq]
      omega
  have hslots' : ∀ s ∈ m.slots.map erasePlayer, s.status < 128 ∧
      s.status &&& hasPlayerMask = 0 ∧ s.team < 128 ∧ s.mods < 2 ^ 31 := by
    intro s hs
    obtain ⟨t, ht, rfl⟩ := List.mem_map.1 hs
    exact hslots t ht
  have henc : ∀ slots2 : List Slot,
      (∀ s ∈ slots2, s.status < 128 ∧ s.status &&& hasPlayerMask = 0 ∧
        s.team < 128 ∧ s.mods < 2 ^ 31) →
      matchEncodable { m with slots := slots2 } = true := by
    intro slots2 hs2
    unfold matchEncodable
    simp only [hid, hhosteq, Option.isSome_some, Option.getD_some,
      hslotAll slots2 hs2, hmodAll slots2 hs2, Bool.and_eq_true,
      decide_eq_true_eq, Bool.and_true, Bool.true_and]
    omega
  have hencM : matchEncodable m = true := by
    have := henc m.slots hslots
    have hmm : { m with slots := m.slots } = m := rfl
    rwa [hmm] at this
  have hbytes : writeMatchBytes { m with slots := m.slots.map erasePlayer }
      sp = writeMatchBytes m sp := by
    unfold writeMatchBytes
    have h1 : (m.slots.map erasePlayer).map (fun x => x.status) =
        m.slots.map (fun x => x.status) := by
      rw [List.map_map]
      rfl
    have h2 : (m.slots.map erasePlayer).map (fun x => x.team) =
        m.slots.map (fun x => x.team) := by
      rw [List.map_map]
      rfl
    have h3 : slotIdsBytes (m.slots.map erasePlayer) = [] :=
      slotIdsBytes_nil (fun s hs => (hslots' s hs).2.1)
    have h4 : slotIdsBytes m.slots = [] :=
      slotIdsBytes_nil (fun s hs => (hslots s hs).2.1)
    simp only [h1, h2, h3, h4, slotModsBytes_map_erase]
  refine ⟨writeMatchBytes m sp, { m with slots := m.slots.map erasePlayer },
    ?_, ?_, ?_⟩
  · rw [write_match, if_pos hencM]
  · exact read_match_writeMatchBytes m online sp hostId hid hip hlen hmods
      hslots hnm hhosteq hhostlt honline hmode hwc htt hmap1 hmap2
      hseed1 hseed2 hpw
  · rw [write_match, if_pos (henc (m.slots.map erasePlayer) hslots'),
      hbytes]

/-- Witness for `write_match_roundtrip` at the concrete
`baseExampleMatch` hosted by the online user 5. -/
theorem write_match_roundtrip_witness :
    ∃ bs m', write_match baseExampleMatch true = some bs ∧
      read_match exampleOnline bs = some m' ∧
      write_match m' true = some bs :=
  write_match_roundtrip baseExampleMatch exampleOnline true 5
    (by decide) (by decide) (by decide) (by decide) (by decide)
    (by decide) (by decide) (by decide) (by decide) (by decide)
    (by decide) (by decide) (by decide) (by decide) (by decide)
    (by decide) (by decide)

/-! ## The score-submission pipeline (`osuSubmitModularSelector`,
`src/domains/osu.py` lines 527-955)

The `Score` class (`objects/score.py`) is absent from `src/`; the score
object is modelled from the spec (§3 *Score submission*) as an input
record carrying exactly the fields the handler reads, already parsed and
classified (`status`: 2 = best, 1 = submitted, 0 = failed, the values
the handler's SQL uses).  `mode_vn` (`GameMode.as_vanilla`,
`constants/gamemodes.py`, also absent) is carried as a field.  The
database tables and the player object are modelled as explicit state:

* `scores`  — the rows of the mode's scores table;
* `stats`   — the player's mode-stats row;
* `mapPlays`/`mapPasses` — the map's counters;
* `replays` — the replay files keyed by score id;
* `playerRestricted` — the submitter's restricted flag
  (`Player.restrict`/`restricted` are referenced by the handler but
  absent from `src/objects/player.py`; modelled from the spec as a
  flag the handler can set);
* `playerStatusMode`/`playerStatusMods` — the session's selected
  mode/mods;
* `broadcasts` — a count of `userStats` fan-outs.

The weighted accuracy/pp/rank recomputation (lines 786-834) reads the
database's top scores and computes float aggregates; no claim inspects
those values, so they enter as oracle parameters `accNew`, `ppNew`,
`rankNew`.  The rank-#1 announcement (lines 616-665), grade-histogram
columns, achievement unlocks and recent-score cache touch no state any
claim mentions and are not modelled.  `score.player.update_latest_activity()`
(line 556) calls an `async` method without `await`, discarding the
coroutine, so it has no effect. -/

structure ScoreRow where
  id : Nat
  map_md5 : String
  userid : Nat
  mode : Nat
  status : Nat
  online_checksum : String
deriving DecidableEq

structure Score where
  playerId : Nat
  playerWhitelisted : Bool
  map_md5 : String
  mode : Nat
  modeVn : Nat
  mods : Nat
  passed : Bool
  status : Nat
  pp : ℚ
  score : Nat
  max_combo : Nat
  online_checksum : String
deriving DecidableEq

structure ModeStats where
  plays : Nat
  playtime : Nat
  tscore : Nat
  rscore : Int
  max_combo : Nat
  acc : ℚ
  pp : Nat
  rank : Nat
deriving DecidableEq

structure SubmitState where
  scores : List ScoreRow
  nextId : Nat
  stats : ModeStats
  mapPlays : Nat
  mapPasses : Nat
  replays : List (Nat × List Nat)
  playerRestricted : Bool
  playerStatusMode : Nat
  playerStatusMods : Nat
  broadcasts : Nat
deriving DecidableEq

inductive SubmitResult where
  | errorNo
  | retryLater
  | errorBeatmap
  | badRequest
  | chart
  | crash
deriving DecidableEq

/-- The `UPDATE {scores_table} SET status = 1 WHERE status = 2 AND
map_md5 = %s AND userid = %s AND mode = %s` of lines 670-675. -/
def demoteOldBest (score : Score) (rows : List ScoreRow) : List ScoreRow :=
  rows.map (fun r =>
    if r.status = 2 ∧ r.map_md5 = score.map_md5 ∧
        r.userid = score.playerId ∧ r.mode = score.modeVn then
      { r with status := 1 }
    else r)

/-- The inserted score row (lines 677-694); `id` is the
`AUTO_INCREMENT`/`lastrowid` value. -/
def mkScoreRow (id : Nat) (score : Score) : ScoreRow :=
  { id := id, map_md5 := score.map_md5, userid := score.playerId,
    mode := score.modeVn, status := score.status,
    online_checksum := score.online_checksum }

/-- Lines 722-955 — the stats update, map-counter update and chart
response, entered once the replay section has finished. -/
def submitTail (score : Score) (te : Nat)
    (hasLeaderboard awardsRankedPp : Bool) (accNew : ℚ)
    (ppNew rankNew : Nat) (prevBestScore : Option Nat)
    (st : SubmitState) : SubmitResult × SubmitState :=
  let stats := st.stats
  let stats := { stats with playtime := stats.playtime + te / 1000,
                            plays := stats.plays + 1,
                            tscore := stats.tscore + score.score }
  let stats :=
    if score.passed ∧ hasLeaderboard then
      let stats :=
        if score.max_combo > stats.max_combo then
          { stats with max_combo := score.max_combo }
        else stats
      if awardsRankedPp ∧ score.status = 2 then
        { stats with
            rscore := stats.rscore + (score.score : Int) -
              ((prevBestScore.getD 0 : Nat) : Int),
            acc := accNew, pp := ppNew, rank := rankNew }
      else stats
    else stats
  let st : SubmitState :=
    { st with stats := stats, broadcasts := st.broadcasts + 1 }
  let st : SubmitState :=
    if ¬ st.playerRestricted then
      { st with mapPlays := st.mapPlays + 1,
                mapPasses := st.mapPasses +
                  (if score.passed then 1 else 0) }
    else st
  let ret :=
    if ¬ score.passed ∨ score.mode ≥ 4 then SubmitResult.errorNo
    else SubmitResult.chart
  (ret, st)

/-- The replay-persistence section and everything after it (lines
696-955): `replay_data = conn.files['score']` (KeyError when the file is
absent), the missing-replay restriction, the replay file write keyed by
the new row id, then the stats/map/response tail. -/
def submitReplayPhase (score : Score) (te : Nat)
    (hasLeaderboard awardsRankedPp : Bool) (accNew : ℚ)
    (ppNew rankNew : Nat) (prevBestScore : Option Nat)
    (files : List (String × List Nat)) (scoreId : Nat)
    (st : SubmitState) : SubmitResult × SubmitState :=
  if score.passed then
    match files.lookup "score" with
    | none =>
      -- `replay_data = conn.files['score']` raises KeyError before the
      -- `'score' not in conn.files` test on the next line can run
      (SubmitResult.crash, st)
    | some replay_data =>
      -- `replay_missing = ('score' not in conn.files or
      --  replay_data == b'\r\n')`; the first disjunct is dead here,
      -- the file was just indexed successfully
      let replay_missing := replay_data = [13, 10]
      if replay_missing ∧ ¬ st.playerRestricted then
        submitTail score te hasLeaderboard awardsRankedPp accNew ppNew
          rankNew prevBestScore { st with playerRestricted := true }
      else
        submitTail score te hasLeaderboard awardsRankedPp accNew ppNew
          rankNew prevBestScore
          { st with replays := (scoreId, replay_data) :: st.replays }
  else
    submitTail score te hasLeaderboard awardsRankedPp accNew ppNew
      rankNew prevBestScore st

/-- `osuSubmitModularSelector` (`src/domains/osu.py` lines 527-955) from
the parse result on.  `score? = none` models a parse failure, the
`playerOnline`/`bmapFound` flags the `score.player`/`score.bmap`
checks, `files` the multipart file dict, `timeElapsed = none` a
non-decimal `st`/`ft` argument, and `ppCap` the autoban threshold. -/
def osuSubmitModularSelector (score? : Option Score)
    (playerOnline bmapFound : Bool)
    (hasLeaderboard awardsRankedPp : Bool)
    (files : List (String × List Nat)) (timeElapsed : Option Nat)
    (ppCap : ℚ) (accNew : ℚ) (ppNew rankNew : Nat)
    (prevBestScore : Option Nat)
    (st : SubmitState) : SubmitResult × SubmitState :=
  match score? with
  | none => (SubmitResult.errorNo, st)
  | some score =>
    if ¬ playerOnline then (SubmitResult.retryLater, st)
    else if ¬ bmapFound then (SubmitResult.errorBeatmap, st)
    else
      -- update status on gm/gm-affecting-mods change (lines 560-565)
      let st :=
        if score.mode ≠ st.playerStatusMode then
          { st with playerStatusMods := score.mods,
                    playerStatusMode := score.mode,
                    broadcasts := st.broadcasts +
                      (if ¬ st.playerRestricted then 1 else 0) }
        else st
      -- duplicate check by exact online checksum (lines 570-579)
      if st.scores.any
          (fun r => r.online_checksum == score.online_checksum) then
        (SubmitResult.errorNo, st)
      else
        match timeElapsed with
        | none => (SubmitResult.badRequest, st)
        | some te =>
          -- pp cap (lines 592-605)
          let st :=
            if awardsRankedPp ∧
                ¬ (score.playerWhitelisted ∨ st.playerRestricted) ∧
                score.pp > ppCap then
              { st with playerRestricted := true }
            else st
          -- demote any previous personal best (lines 667-675)
          let st :=
            if score.status = 2 then
              { st with scores := demoteOldBest score st.scores }
            else st
          -- insert the new row (lines 677-694)
          let scoreId := st.nextId
          let st := { st with
            scores := mkScoreRow scoreId score :: st.scores,
            nextId := st.nextId + 1 }
          -- replay persistence and the rest (lines 696-955)
          submitReplayPhase score te hasLeaderboard awardsRankedPp
            accNew ppNew rankNew prevBestScore files scoreId st

/-! ### C2 — duplicate submissions -/

def exampleStats : ModeStats :=
  { plays := 0, playtime := 0, tscore := 0, rscore := 0, max_combo := 0,
    acc := 0, pp := 0, rank := 0 }

/-- A stored best row with online checksum "C". -/
def exampleRow : ScoreRow :=
  { id := 1, map_md5 := "m", userid := 9, mode := 0, status := 2,
    online_checksum := "C" }

def exampleSubmitState : SubmitState :=
  { scores := [exampleRow], nextId := 2, stats := exampleStats,
    mapPlays := 0, mapPasses := 0, replays := [],
    playerRestricted := false, playerStatusMode := 0,
    playerStatusMods := 0, broadcasts := 0 }

/-- A passed taiko score duplicating checksum "C" while the session's
status still shows mode 0. -/
def exampleDupScore : Score :=
  { playerId := 9, playerWhitelisted := false, map_md5 := "m", mode := 1,
    modeVn := 1, mods := 0, passed := true, status := 2, pp := 0,
    score := 100, max_combo := 10, online_checksum := "C" }

/-- **C2 (counterexample)** — the claim's parenthetical "state
unchanged" fails: a duplicate submission still runs the
status-update block that precedes the duplicate check (lines 560-565),
so a duplicate sent in a different game mode mutates the session's
selected mode/mods and fans out a `userStats` broadcast even though it
returns `error: no`. -/
theorem duplicate_submission_state_change_counterexample :
    (osuSubmitModularSelector (some exampleDupScore) true true true true
        [("score", [1])] (some 1000) 100 0 0 1 none
        exampleSubmitState).1 = SubmitResult.errorNo ∧
    (osuSubmitModularSelector (some exampleDupScore) true true true true
        [("score", [1])] (some 1000) 100 0 0 1 none
        exampleSubmitState).2.playerStatusMode = 1 ∧
    exampleSubmitState.playerStatusMode = 0 := by
  refine ⟨?_, ?_, rfl⟩ <;> decide

/-- **C2 (amended)** — a submission whose online checksum exactly
matches a stored row returns exactly the bytes `error: no`, inserts no
score row, and performs no stat, map, replay or restriction updates;
only the player-status/presence update that precedes the duplicate
check may still occur. -/
theorem duplicate_score_submission (score : Score)
    (hasLb arpp : Bool) (files : List (String × List Nat))
    (te : Option Nat) (cap acc : ℚ) (pp rank : Nat)
    (prev : Option Nat) (st : SubmitState)
    (hdup : st.scores.any
      (fun r => r.online_checksum == score.online_checksum) = true) :
    (osuSubmitModularSelector (some score) true true hasLb arpp files te
        cap acc pp rank prev st).1 = SubmitResult.errorNo ∧
    (osuSubmitModularSelector (some score) true true hasLb arpp files te
        cap acc pp rank prev st).2.scores = st.scores ∧
    (osuSubmitModularSelector (some score) true true hasLb arpp files te
        cap acc pp rank prev st).2.stats = st.stats ∧
    (osuSubmitModularSelector (some score) true true hasLb arpp files te
        cap acc pp rank prev st).2.mapPlays = st.mapPlays ∧
    (osuSubmitModularSelector (some score) true true hasLb arpp files te
        cap acc pp rank prev st).2.mapPasses = st.mapPasses ∧
    (osuSubmitModularSelector (some score) true true hasLb arpp files te
        cap acc pp rank prev st).2.replays = st.replays ∧
    (osuSubmitModularSelector (some score) true true hasLb arpp files te
        cap acc pp rank prev st).2.nextId = st.nextId ∧
    (osuSubmitModularSelector (some score) true true hasLb arpp files te
        cap acc pp rank prev st).2.playerRestricted =
      st.playerRestricted := by
  by_cases hm : score.mode ≠ st.playerStatusMode <;>
    simp [osuSubmitModularSelector, hdup, hm]

/-- Witness for `duplicate_score_submission` at the concrete duplicate
submission. -/
theorem duplicate_score_submission_witness :
    (osuSubmitModularSelector (some exampleDupScore) true true true true
        [("score", [1])] (some 1000) 100 0 0 1 none
        exampleSubmitState).1 = SubmitResult.errorNo ∧
    (osuSubmitModularSelector (some exampleDupScore) true true true true
        [("score", [1])] (some 1000) 100 0 0 1 none
        exampleSubmitState).2.scores = exampleSubmitState.scores ∧
    (osuSubmitModularSelector (some exampleDupScore) true true true true
        [("score", [1])] (some 1000) 100 0 0 1 none
        exampleSubmitState).2.stats = exampleSubmitState.stats ∧
    (osuSubmitModularSelector (some exampleDupScore) true true true true
        [("score", [1])] (some 1000) 100 0 0 1 none
        exampleSubmitState).2.mapPlays = exampleSubmitState.mapPlays ∧
    (osuSubmitModularSelector (some exampleDupScore) true true true true
        [("score", [1])] (some 1000) 100 0 0 1 none
        exampleSubmitState).2.mapPasses = exampleSubmitState.mapPasses ∧
    (osuSubmitModularSelector (some exampleDupScore) true true true true
        [("score", [1])] (some 1000) 100 0 0 1 none
        exampleSubmitState).2.replays = exampleSubmitState.replays ∧
    (osuSubmitModularSelector (some exampleDupScore) true true true true
        [("score", [1])] (some 1000) 100 0 0 1 none
        exampleSubmitState).2.nextId = exampleSubmitState.nextId ∧
    (osuSubmitModularSelector (some exampleDupScore) true true true true
        [("score", [1])] (some 1000) 100 0 0 1 none
        exampleSubmitState).2.playerRestricted =
      exampleSubmitState.playerRestricted :=
  duplicate_score_submission exampleDupScore true true [("score", [1])]
    (some 1000) 100 0 0 1 none exampleSubmitState (by decide)

/-! ### C3 — at most one best row per (player, map, mode) -/

/-- `status = 2 AND map_md5 = %s AND userid = %s AND mode = %s`: the row
is a best row for the given triple. -/
def bestFor (md5 : String) (uid mode : Nat) (r : ScoreRow) : Bool :=
  r.status == 2 && r.map_md5 == md5 && r.userid == uid && r.mode == mode

/-- The ranking invariant: for every (map, player, mode) triple carried
by some row, at most one row has `status = best`. -/
def atMostOneBest (rows : List ScoreRow) : Prop :=
  ∀ r ∈ rows, r.status = 2 →
    (rows.filter (fun q => bestFor r.map_md5 r.userid r.mode q)).length ≤ 1

theorem demote_no_best_self (score : Score) (rows : List ScoreRow) :
    (demoteOldBest score rows).filter
      (fun q => bestFor score.map_md5 score.playerId score.modeVn q) =
      [] := by
  induction rows with
  | nil => rfl
  | cons r rows ih =>
    simp only [demoteOldBest, List.map_cons, List.filter_cons] at ih ⊢
    by_cases hc : r.status = 2 ∧ r.map_md5 = score.map_md5 ∧
        r.userid = score.playerId ∧ r.mode = score.modeVn
    · rw [if_pos hc]
      have hb : bestFor score.map_md5 score.playerId score.modeVn
          { r with status := 1 } = false := by
        simp [bestFor]
      rw [hb]
      simpa [demoteOldBest] using ih
    · rw [if_neg hc]
      have hb : bestFor score.map_md5 score.playerId score.modeVn r =
          false := by
        rcases Bool.eq_false_or_eq_true (bestFor score.map_md5
          score.playerId score.modeVn r) with h1 | h1
        · exfalso
          simp only [bestFor, Bool.and_eq_true, beq_iff_eq] at h1
          exact hc ⟨h1.1.1.1, h1.1.1.2, h1.1.2, h1.2⟩
        · exact h1
      rw [hb]
      simpa [demoteOldBest] using ih

theorem demote_filter_le (score : Score) (rows : List ScoreRow)
    (md5 : String) (uid mode : Nat) :
    ((demoteOldBest score rows).filter
        (fun q => bestFor md5 uid mode q)).length ≤
      (rows.filter (fun q => bestFor md5 uid mode q)).length := by
  induction rows with
  | nil => simp [demoteOldBest]
  | cons r rows ih =>
    simp only [demoteOldBest, List.map_cons, List.filter_cons] at ih ⊢
    by_cases hc : r.status = 2 ∧ r.map_md5 = score.map_md5 ∧
        r.userid = score.playerId ∧ r.mode = score.modeVn
    · rw [if_pos hc]
      have hb : bestFor md5 uid mode { r with status := 1 } = false := by
        simp [bestFor]
      rw [hb]
      by_cases hr : bestFor md5 uid mode r = true
      · rw [hr]
        simp only [if_true]
        calc ((demoteOldBest score rows).filter _).length ≤ _ := ih
          _ ≤ _ := Nat.le_succ _
      · rw [Bool.not_eq_true] at hr
        rw [hr]
        simpa [demoteOldBest] using ih
    · rw [if_neg hc]
      by_cases hr : bestFor md5 uid mode r = true
      · rw [hr]
        simpa [demoteOldBest, hr] using Nat.succ_le_succ ih
      · rw [Bool.not_eq_true] at hr
        rw [hr]
        simpa [demoteOldBest] using ih

theorem demote_mem_best (score : Score) (rows : List ScoreRow)
    (r : ScoreRow) (hr : r ∈ demoteOldBest score rows)
    (hs : r.status = 2) :
    r ∈ rows ∧ ¬ (r.map_md5 = score.map_md5 ∧
      r.userid = score.playerId ∧ r.mode = score.modeVn) := by
  obtain ⟨r0, hr0, heq⟩ := List.mem_map.1 hr
  by_cases hc : r0.status = 2 ∧ r0.map_md5 = score.map_md5 ∧
      r0.userid = score.playerId ∧ r0.mode = score.modeVn
  · rw [if_pos hc] at heq
    subst heq
    simp at hs
  · rw [if_neg hc] at heq
    subst heq
    refine ⟨hr0, fun htriple => hc ⟨hs, htriple⟩⟩

theorem atMostOneBest_demote_insert (score : Score)
    (rows : List ScoreRow) (id : Nat) (h : atMostOneBest rows) :
    atMostOneBest (mkScoreRow id score :: demoteOldBest score rows) := by
  intro r hr hs
  have hself := demote_no_best_self score rows
  rcases List.mem_cons.1 hr with rfl | hmem
  · -- the freshly inserted row
    simp only [List.filter_cons]
    have hfl : (demoteOldBest score rows).filter
        (fun q => bestFor (mkScoreRow id score).map_md5
          (mkScoreRow id score).userid (mkScoreRow id score).mode q) =
        [] := hself
    rw [hfl]
    split_ifs <;> simp
  · -- a surviving (non-demoted) row
    obtain ⟨hmem0, hnt⟩ := demote_mem_best score rows r hmem hs
    simp only [List.filter_cons]
    have hbm : bestFor r.map_md5 r.userid r.mode (mkScoreRow id score) =
        false := by
      by_contra hby
      rw [Bool.not_eq_false] at hby
      simp only [bestFor, mkScoreRow, Bool.and_eq_true, beq_iff_eq]
        at hby
      exact hnt ⟨hby.1.1.2.symm, hby.1.2.symm, hby.2.symm⟩
    rw [hbm]
    calc ((demoteOldBest score rows).filter _).length ≤
        (rows.filter (fun q => bestFor r.map_md5 r.userid r.mode
          q)).length := demote_filter_le score rows _ _ _
      _ ≤ 1 := h r hmem0 hs

theorem atMostOneBest_insert (score : Score) (rows : List ScoreRow)
    (id : Nat) (h : atMostOneBest rows) (hs : score.status ≠ 2) :
    atMostOneBest (mkScoreRow id score :: rows) := by
  intro r hr hrs
  have hbm : ∀ md5 uid mode, bestFor md5 uid mode (mkScoreRow id score) =
      false := by
    intro md5 uid mode
    simp only [bestFor, mkScoreRow]
    by_contra hby
    rw [Bool.not_eq_false] at hby
    simp only [Bool.and_eq_true, beq_iff_eq] at hby
    exact hs hby.1.1.1
  rcases List.mem_cons.1 hr with rfl | hmem
  · exact absurd hrs (by simpa [mkScoreRow] using hs)
  · simp only [List.filter_cons, hbm]
    exact h r hmem hrs

theorem submitTail_scores (score : Score) (te : Nat)
    (hasLb arpp : Bool) (acc : ℚ) (pp rank : Nat) (prev : Option Nat)
    (st : SubmitState) :
    (submitTail score te hasLb arpp acc pp rank prev st).2.scores =
      st.scores := by
  simp only [submitTail]
  split_ifs <;> rfl

theorem submitReplayPhase_scores (score : Score) (te : Nat)
    (hasLb arpp : Bool) (acc : ℚ) (pp rank : Nat) (prev : Option Nat)
    (files : List (String × List Nat)) (scoreId : Nat)
    (st : SubmitState) :
    (submitReplayPhase score te hasLb arpp acc pp rank prev files
        scoreId st).2.scores = st.scores := by
  simp only [submitReplayPhase]
  split_ifs
  · match files.lookup "score" with
    | none => rfl
    | some replay_data =>
      simp only []
      split_ifs <;> rw [submitTail_scores]
  · rw [submitTail_scores]

/-- **C3** — the score-submission handler preserves the invariant that,
for every (player, map, mode) triple, at most one stored row has
`status = best`: when a new score is classified best, every pre-existing
best row for the triple is first demoted to `submitted` (lines 670-675)
before the new best row is inserted (lines 677-694). -/
theorem best_row_unique_invariant (score? : Option Score)
    (pOn bFound hasLb arpp : Bool) (files : List (String × List Nat))
    (te : Option Nat) (cap acc : ℚ) (pp rank : Nat) (prev : Option Nat)
    (st : SubmitState) (h : atMostOneBest st.scores) :
    atMostOneBest (osuSubmitModularSelector score? pOn bFound hasLb arpp
      files te cap acc pp rank prev st).2.scores := by
  match score? with
  | none => simpa [osuSubmitModularSelector] using h
  | some score =>
    by_cases hON : pOn = true
    case neg => simpa [osuSubmitModularSelector, hON] using h
    by_cases hBF : bFound = true
    case neg => simpa [osuSubmitModularSelector, hON, hBF] using h
    by_cases hm : score.mode ≠ st.playerStatusMode <;>
    by_cases hdup : st.scores.any
      (fun r => r.online_checksum == score.online_checksum) = true
    all_goals
      rcases te with _ | te0
    all_goals
      by_cases hbest : score.status = 2
    all_goals try simpa [osuSubmitModularSelector, hON, hBF, hm,
      hdup] using h
    all_goals
      by_cases hcap : arpp = true ∧
        ¬ (score.playerWhitelisted = true ∨ st.playerRestricted = true) ∧
        score.pp > cap
    all_goals
      simp only [osuSubmitModularSelector, hON, hBF, hm, hdup, hcap,
        hbest, if_true, if_false, ite_true, ite_false, ne_eq,
        not_true_eq_false, not_false_eq_true, Bool.not_eq_true,
        submitReplayPhase_scores]
    all_goals simp [submitReplayPhase_scores, hbest, hdup]
    all_goals first
      | exact atMostOneBest_demote_insert score _ _ h
      | exact atMostOneBest_insert score _ _ h hbest

instance atMostOneBest_decidable (rows : List ScoreRow) :
    Decidable (atMostOneBest rows) :=
  inferInstanceAs (Decidable (∀ r ∈ rows, r.status = 2 →
    (rows.filter (fun q =>
      bestFor r.map_md5 r.userid r.mode q)).length ≤ 1))

/-- A fresh (non-duplicate) passed best score in vanilla standard. -/
def exampleBestScore : Score :=
  { playerId := 9, playerWhitelisted := false, map_md5 := "m", mode := 0,
    modeVn := 0, mods := 0, passed := true, status := 2, pp := 0,
    score := 100, max_combo := 10, online_checksum := "D" }

/-- Witness for `best_row_unique_invariant`: inserting a new best over
an existing best row for the same (player, map, mode) keeps the table
with at most one best row. -/
theorem best_row_unique_invariant_witness :
    atMostOneBest (osuSubmitModularSelector (some exampleBestScore) true
      true true true [("score", [1, 2, 3])] (some 1000) 100 0 0 1 none
      exampleSubmitState).2.scores :=
  best_row_unique_invariant (some exampleBestScore) true true true true
    [("score", [1, 2, 3])] (some 1000) 100 0 0 1 none
    exampleSubmitState (by decide)

/-! ### C9 — replay persistence and the missing-replay policy -/

/-- **C9** — evaluation of the handler around the replay upload
(`src/domains/osu.py` lines 696-717).  With the replay file attached, it
is persisted keyed by the new score row's id.  With the client's
empty-replay marker `b'\r\n'`, the unrestricted submitter is restricted
and the handler still completes with its normal chart response.  But
when the `score` file is entirely absent from the multipart files, the
handler crashes with a `KeyError` (`replay_data = conn.files['score']`
runs before the `'score' not in conn.files` membership test), instead of
restricting the submitter and completing as the spec prescribes. -/
theorem replay_missing_keyerror :
    (osuSubmitModularSelector (some exampleBestScore) true true true true
        [("score", [1, 2, 3])] (some 1000) 100 0 0 1 none
        exampleSubmitState).2.replays = [(2, [1, 2, 3])] ∧
    (osuSubmitModularSelector (some exampleBestScore) true true true true
        [("score", [13, 10])] (some 1000) 100 0 0 1 none
        exampleSubmitState).1 = SubmitResult.chart ∧
    (osuSubmitModularSelector (some exampleBestScore) true true true true
        [("score", [13, 10])] (some 1000) 100 0 0 1 none
        exampleSubmitState).2.playerRestricted = true ∧
    exampleSubmitState.playerRestricted = false ∧
    (osuSubmitModularSelector (some exampleBestScore) true true true true
        [] (some 1000) 100 0 0 1 none
        exampleSubmitState).1 = SubmitResult.crash := by
  refine ⟨?_, ?_, ?_, rfl, ?_⟩ <;> decide

/-! ## The freemods toggle (`MatchChangeSettings.handle`,
`src/domains/cho.py` lines 971-996) -/

/-- Modelled from the spec: `constants/mods.py` is absent from `src/`.
The standard osu! mod bit values used by the spec's freemods example. -/
def Mods_HD : Nat := 8

def Mods_HR : Nat := 16

def Mods_DT : Nat := 64

def Mods_HT : Nat := 256

def Mods_NC : Nat := 512

/-- Modelled from the spec: the glossary defines the speed-changing mods
as DoubleTime, Nightcore and HalfTime (`SPEED_CHANGING_MODS` is imported
from the absent `constants/mods.py`). -/
def SPEED_CHANGING_MODS : Nat := Mods_DT ||| Mods_NC ||| Mods_HT

/-- `x & ~mask` on Python ints/IntFlags clears the mask's bits; on
naturals this is `x ^^^ (x &&& mask)`. -/
def andNot (x mask : Nat) : Nat := x ^^^ (x &&& mask)

/-- Modelled from the spec: `Match.get_host_slot` (`objects/match.py` is
absent from `src/`) returns the occupied slot whose player is the host. -/
def get_host_slot (m : Match) : Option Slot :=
  m.slots.find? (fun s =>
    s.status &&& hasPlayerMask != 0 && s.player == m.host)

/-- The freemods-change branch of `MatchChangeSettings.handle`
(`src/domains/cho.py` lines 971-996).  Toggling on: every occupied slot
takes the room's non-speed mods, then the room mods are masked with
`~SPEED_CHANGING_MODS` (the code's own comment says "keep only
speed-changing mods", but `&= ~...` clears them instead).  Toggling off:
the room keeps its speed mods, takes the host slot's mods on top, and
every occupied slot's mods are cleared; `none` models the crash when
`get_host_slot` finds no host slot (`host.mods` on `None`). -/
def matchChangeFreemods (m : Match) (newFreemods : Bool) : Option Match :=
  if newFreemods ≠ m.freemods then
    if newFreemods then
      some { m with
        freemods := newFreemods,
        slots := m.slots.map (fun s =>
          if s.status &&& hasPlayerMask ≠ 0 then
            { s with mods := andNot m.mods SPEED_CHANGING_MODS }
          else s),
        mods := andNot m.mods SPEED_CHANGING_MODS }
    else
      match get_host_slot m with
      | none => none
      | some hostSlot =>
        some { m with
          freemods := newFreemods,
          mods := (m.mods &&& SPEED_CHANGING_MODS) ||| hostSlot.mods,
          slots := m.slots.map (fun s =>
            if s.status &&& hasPlayerMask ≠ 0 then { s with mods := 0 }
            else s) }
  else some m

/-- A lobby with room mods DT|HD (= 72), freemods off, slot 0 occupied:
the spec's freemods scenario. -/
def freemodsOnExample : Match :=
  { baseExampleMatch with mods := Mods_DT ||| Mods_HD,
                          slots := occupiedExampleSlots }

/-- Slot 0 of the toggle-off scenario: occupied by user 7 with HardRock
selected. -/
def hostSlotHR : Slot :=
  { status := 4, team := 0, player := some 7, mods := Mods_HR }

/-- Freemods already on with room mods DT; the host (user 7) occupies
slot 0 with HardRock selected. -/
def freemodsOffExample : Match :=
  { baseExampleMatch with
      mods := Mods_DT, freemods := true, host := some 7,
      slots := hostSlotHR :: List.replicate 15
        { status := 1, team := 0, player := none, mods := 0 } }

/-- **C1** — evaluation of the freemods toggle at the spec's own
scenario.  Starting from room mods DT|HD with freemods off, toggling
freemods on gives every occupied slot the non-speed mods HD as the claim
says, but the room mods become HD — the speed mod DT is *dropped* from
the room instead of kept: line 985 executes
`m.mods &= ~SPEED_CHANGING_MODS` directly under the comment "keep only
speed-changing mods" (the `!mp mods` command at
`src/constants/commands.py` line 1587 performs the intended
`&= SPEED_CHANGING_MODS`).  The toggle-off direction behaves exactly as
claimed: room mods become DT|HR and all occupied slots are cleared to
no-mod. -/
theorem freemods_toggle_evaluation :
    ((matchChangeFreemods freemodsOnExample true).map (·.mods) =
        some Mods_HD ∧
      (matchChangeFreemods freemodsOnExample true).map (·.mods) ≠
        some Mods_DT ∧
      (matchChangeFreemods freemodsOnExample true).map
          (fun m2 => m2.slots.map (·.mods)) =
        some (Mods_HD :: List.replicate 15 0)) ∧
    ((matchChangeFreemods freemodsOffExample false).map (·.mods) =
        some (Mods_DT ||| Mods_HR) ∧
      (matchChangeFreemods freemodsOffExample false).map
          (fun m2 => m2.slots.map (·.mods)) =
        some (List.replicate 16 0)) := by
  refine ⟨⟨?_, ?_, ?_⟩, ?_, ?_⟩ <;> decide

/-! ## Sessions, login and logout (`src/domains/cho.py`,
`src/objects/player.py`, `src/objects/collections.py`)

A `Session` models one logged-in `Player` with the attributes the
login/logout claims touch; the per-session outbound buffer is `queue`.
`Player.logout`'s match/spectator/channel teardown (`player.py` lines
322-332) acts on the match and channel registries, which these claims do
not mention; its session-registry effects — token invalidation, removal
from `glob.players`, and the logout broadcast to every remaining
session — are modelled in full. -/

structure Session where
  id : Nat
  safe_name : String
  token : String
  login_time : ℚ
  last_recv_time : ℚ
  queue : List Nat
deriving DecidableEq

/-- `Player.make_safe` (`src/objects/player.py` lines 290-293):
`name.lower().replace(' ', '_')`. -/
def make_safe (name : String) : String :=
  (name.toLower).replace " " "_"

/-- `Players.get(name=...)` (`src/objects/collections.py` lines
221-240): linear scan comparing the stored `safe_name` against the
normalized query. -/
def playersGetByName (players : List Session) (username : String) :
    Option Session :=
  players.find? (fun p => p.safe_name == make_safe username)

/-- `Player.logout` (`src/objects/player.py` lines 317-340): invalidate
the token, remove the session from `glob.players`, then enqueue
`packets.logout(id)` to every remaining session.  Returns the updated
registry and the (now tokenless) session object. -/
def playerLogout (players : List Session) (p : Session) :
    List Session × Session :=
  ((players.filter (fun q => q.token != p.token)).map
      (fun q => { q with queue := q.queue ++ logoutPacket (p.id : Int) }),
    { p with token := "" })

/-- The UTF-8 bytes of an ASCII string. -/
def asciiBytes (s : String) : List Nat :=
  s.data.map (fun c => c.toNat)

/-! ### C10 — the one-second logout grace period -/

/-- `Logout.handle` (`src/domains/cho.py` lines 241-254): a logout
packet arriving less than one second after login is ignored entirely;
otherwise `p.logout()` runs. -/
def logoutHandle (now : ℚ) (players : List Session) (p : Session) :
    List Session × Session :=
  if now - p.login_time < 1 then (players, p)
  else playerLogout players p

/-- **C10** — a logout packet received less than one second after the
session's login time is ignored entirely: the registry and the session
(token included) are unchanged and nothing is broadcast.  A logout
packet arriving at least one second after login destroys the session:
its token is invalidated, it is removed from the registry, and the
logout packet for its id is appended to every remaining session's
outbound queue. -/
theorem logout_one_second_grace (now : ℚ) (players : List Session)
    (p : Session) (_hmem : p ∈ players) :
    (now - p.login_time < 1 →
      logoutHandle now players p = (players, p)) ∧
    (1 ≤ now - p.login_time →
      (logoutHandle now players p).2.token = "" ∧
      (∀ q ∈ (logoutHandle now players p).1, q.token ≠ p.token) ∧
      (∀ q ∈ players, q.token ≠ p.token →
        { q with queue := q.queue ++ logoutPacket (p.id : Int) } ∈
          (logoutHandle now players p).1)) := by
  constructor
  · intro hlt
    rw [logoutHandle, if_pos hlt]
  · intro hge
    have hnlt : ¬ now - p.login_time < 1 := by linarith
    rw [logoutHandle, if_neg hnlt]
    refine ⟨rfl, ?_, ?_⟩
    · intro q hq
      obtain ⟨q0, hq0, rfl⟩ := List.mem_map.1 hq
      have := (List.mem_filter.1 hq0).2
      simpa using this
    · intro q hq hqt
      apply List.mem_map_of_mem
      exact List.mem_filter.2 ⟨hq, by simpa using hqt⟩

def exampleSession : Session :=
  { id := 5, safe_name := "a", token := "t", login_time := 0,
    last_recv_time := 0, queue := [] }

/-- Witness for `logout_one_second_grace`: half a second after login the
logout is ignored; five seconds after login the token is invalidated. -/
theorem logout_one_second_grace_witness :
    logoutHandle (1 / 2) [exampleSession] exampleSession =
        ([exampleSession], exampleSession) ∧
      (logoutHandle 5 [exampleSession] exampleSession).2.token = "" :=
  ⟨(logout_one_second_grace (1 / 2) [exampleSession] exampleSession
      (List.mem_singleton.2 rfl)).1
      (by norm_num [exampleSession]),
    ((logout_one_second_grace 5 [exampleSession] exampleSession
      (List.mem_singleton.2 rfl)).2
      (by norm_num [exampleSession])).1⟩

/-! ### C7 — duplicate live sessions at login -/

/-- Result of the already-online check: an early `(resp, 'no')` return,
or fall-through to the credential phase with the (possibly pruned)
registry. -/
inductive LoginCheck where
  | reject (resp : List Nat) (token : String) (players : List Session)
  | proceed (players : List Session)
deriving DecidableEq

/-- Lines 343-357 of `login` (`src/domains/cho.py`): if a live session
with the same name exists and has not pinged for more than 10 seconds
(relative to the login time), it is logged out and the login proceeds;
otherwise the login fails with `userID(-1)` plus a notification and
token `'no'`. -/
def loginSessionCheck (players : List Session) (username : String)
    (login_time : ℚ) : LoginCheck :=
  match playersGetByName players username with
  | some p =>
    if login_time - p.last_recv_time > 10 then
      LoginCheck.proceed (playerLogout players p).1
    else
      LoginCheck.reject
        (userID (-1) ++
          notification (asciiBytes "User already logged in."))
        "no" players
  | none => LoginCheck.proceed players

/-- **C7** — when a live session with the same (normalized) username
exists: if it has been silent for more than the 10-second timeout
relative to the login time, it is logged out (evicted from the registry)
and the login proceeds; otherwise the login fails, returning exactly
`packets.userID(-1)` followed by the `'User already logged in.'`
notification with token `'no'`, and the registry is untouched (no new
session is registered by this early return). -/
theorem login_already_online (players : List Session) (username : String)
    (login_time : ℚ) (p : Session)
    (hfind : playersGetByName players username = some p) :
    (login_time - p.last_recv_time > 10 →
      loginSessionCheck players username login_time =
        LoginCheck.proceed (playerLogout players p).1 ∧
      ∀ q ∈ (playerLogout players p).1, q.token ≠ p.token) ∧
    (¬ login_time - p.last_recv_time > 10 →
      loginSessionCheck players username login_time =
        LoginCheck.reject
          (userID (-1) ++
            notification (asciiBytes "User already logged in."))
          "no" players) := by
  constructor
  · intro hstale
    refine ⟨by rw [loginSessionCheck, hfind]; exact if_pos hstale, ?_⟩
    intro q hq
    obtain ⟨q0, hq0, rfl⟩ := List.mem_map.1 hq
    have := (List.mem_filter.1 hq0).2
    simpa using this
  · intro hfresh
    rw [loginSessionCheck, hfind]
    exact if_neg hfresh

/-- A session for user "a" that last pinged at time 0. -/
def staleSession : Session :=
  { id := 7, safe_name := make_safe "a", token := "u", login_time := 0,
    last_recv_time := 0, queue := [] }

/-- Witness for `login_already_online`: at time 20 the silent session is
evicted and login proceeds; at time 5 the login is rejected. -/
theorem login_already_online_witness :
    loginSessionCheck [staleSession] "a" 20 =
        LoginCheck.proceed (playerLogout [staleSession] staleSession).1 ∧
      loginSessionCheck [staleSession] "a" 5 =
        LoginCheck.reject
          (userID (-1) ++
            notification (asciiBytes "User already logged in."))
          "no" [staleSession] :=
  ⟨((login_already_online [staleSession] "a" 20 staleSession
      (by simp [playersGetByName, List.find?, staleSession])).1
      (by norm_num [staleSession])).1,
    (login_already_online [staleSession] "a" 5 staleSession
      (by simp [playersGetByName, List.find?, staleSession])).2
      (by norm_num [staleSession])⟩

/-! ### C8 — the bcrypt verification cache -/

/-- Every cache entry maps a bcrypt hash to an MD5 that bcrypt-verified
against it. -/
def cacheSound (checkpw : String → String → Bool)
    (cache : List (String × String)) : Prop :=
  ∀ e ∈ cache, checkpw e.2 e.1 = true

/-- Lines 370-386 of `login` (`src/domains/cho.py`): consult the
in-memory bcrypt cache keyed by the stored bcrypt hash; on a miss run
`bcrypt.checkpw` and cache the MD5 only after it verifies.  Returns
whether the credentials were accepted and the updated cache.
`checkpw` is the external `bcrypt.checkpw`. -/
def checkCredentials (checkpw : String → String → Bool)
    (cache : List (String × String)) (pw_md5 pw_bcrypt : String) :
    Bool × List (String × String) :=
  match cache.lookup pw_bcrypt with
  | some cached_md5 =>
    if pw_md5 ≠ cached_md5 then (false, cache) else (true, cache)
  | none =>
    if checkpw pw_md5 pw_bcrypt then (true, (pw_bcrypt, pw_md5) :: cache)
    else (false, cache)

/-- **C8** — the bcrypt cache only ever maps a hash to an MD5 that
verified against it: (1) cache soundness is preserved by every login
attempt (a failed attempt writes nothing); (2) any accepted login's MD5
bcrypt-verifies against the stored hash, even when accepted via the
cache; (3) since bcrypt admits one verifying password per hash, a
correct login is never rejected because of a poisoned cache entry. -/
theorem lookup_mem {α β : Type} [BEq α] [LawfulBEq α]
    {l : List (α × β)} {k : α} {v : β}
    (h : List.lookup k l = some v) : (k, v) ∈ l := by
  induction l with
  | nil => simp [List.lookup] at h
  | cons e rest ih =>
    obtain ⟨a, b⟩ := e
    rw [List.lookup] at h
    cases hk : (k == a) with
    | true =>
      rw [hk] at h
      simp only [Option.some.injEq] at h
      have hka : k = a := eq_of_beq hk
      subst hka
      subst h
      exact List.mem_cons_self _ _
    | false =>
      rw [hk] at h
      exact List.mem_cons_of_mem _ (ih h)

theorem bcrypt_cache_never_poisoned (checkpw : String → String → Bool)
    (cache : List (String × String)) (pw_md5 pw_bcrypt : String)
    (hinv : cacheSound checkpw cache) :
    cacheSound checkpw (checkCredentials checkpw cache pw_md5 pw_bcrypt).2 ∧
    ((checkCredentials checkpw cache pw_md5 pw_bcrypt).1 = true →
      checkpw pw_md5 pw_bcrypt = true) ∧
    ((∀ m m', checkpw m pw_bcrypt = true → checkpw m' pw_bcrypt = true →
        m = m') →
      checkpw pw_md5 pw_bcrypt = true →
      (checkCredentials checkpw cache pw_md5 pw_bcrypt).1 = true) := by
  match hlk : List.lookup pw_bcrypt cache with
  | some cached_md5 =>
    have hmem : (pw_bcrypt, cached_md5) ∈ cache := lookup_mem hlk
    have hver : checkpw cached_md5 pw_bcrypt = true := hinv _ hmem
    by_cases hne : pw_md5 = cached_md5
    · subst hne
      simp only [checkCredentials, hlk]
      rw [if_neg (fun hcon => hcon rfl)]
      exact ⟨hinv, fun _ => hver, fun _ _ => rfl⟩
    · simp only [checkCredentials, hlk]
      rw [if_pos hne]
      refine ⟨hinv, ?_, ?_⟩
      · intro hfalse
        exact absurd hfalse (by simp)
      · intro hfn hpw
        exact absurd (hfn pw_md5 cached_md5 hpw hver) hne
  | none =>
    by_cases hpw : checkpw pw_md5 pw_bcrypt = true
    · simp only [checkCredentials, hlk]
      rw [if_pos hpw]
      refine ⟨?_, fun _ => hpw, fun _ _ => rfl⟩
      intro e he
      rcases List.mem_cons.1 he with rfl | he0
      · exact hpw
      · exact hinv e he0
    · simp only [checkCredentials, hlk]
      rw [if_neg hpw]
      refine ⟨hinv, ?_, fun _ hc => absurd hc hpw⟩
      intro hfalse
      exact absurd hfalse (by simp)

/-- Witness for `bcrypt_cache_never_poisoned` with equality as the
(one-password-per-hash) verifier and a sound one-entry cache. -/
theorem bcrypt_cache_never_poisoned_witness :
    cacheSound (fun m h => m == h)
      (checkCredentials (fun m h => m == h) [("h", "h")] "h" "h").2 ∧
    ((checkCredentials (fun m h => m == h) [("h", "h")] "h" "h").1 =
        true → ("h" == "h") = true) ∧
    ((∀ m m', (m == "h") = true → (m' == "h") = true → m = m') →
      ("h" == "h") = true →
      (checkCredentials (fun m h => m == h) [("h", "h")] "h" "h").1 =
        true) :=
  bcrypt_cache_never_poisoned (fun m h => m == h) [("h", "h")] "h" "h"
    (by intro e he; simp at he; simp [he])

end Gulag
